import Mathlib

/-!
Verification of the telephony ↔ voice-agent audio bridge
(`backend/audiosocket_server.py`, `backend/elevenlabs_conv_ai.py`).

Shallow embedding conventions:
* byte buffers are `List Nat` (each entry a byte value 0..255);
* PCM16 samples are `Int` (signed, little-endian on the wire, as with
  CPython `audioop` and `numpy.frombuffer(dtype=int16)` on x86);
* fallible operations (`struct` range checks, `numpy.frombuffer` /
  `audioop` "not a whole number of frames" errors, caught exceptions)
  return `Option`;
* the asyncio streams are modelled as the full byte list available to the
  reader; `readexactly` that runs off the end is `none`
  (`IncompleteReadError`).  Wall-clock behaviour (the 0.5 s read timeout
  and its silence keepalive, inter-chunk sleeps) is not modelled: the
  modelled stream always has its next byte either available or ended.
-/

/-! ## G.711 μ-law companding (CPython `audioop`)

`audioop.ulaw2lin(_, 2)` applies `st_ulaw2linear16` to each μ-law byte and
emits the 16-bit result; `audioop.lin2ulaw(_, 2)` applies
`st_14linear2ulaw(sample >> 2)` to each 16-bit sample.  The definitions
below are byte-for-byte translations of those C routines (constants
BIAS = 0x84, CLIP = 8159, seg_uend table) and were checked exhaustively
against the library on every μ-law byte and every 16-bit sample. -/

/-- `st_ulaw2linear16` from `audioop`: decode one μ-law byte `b` (0..255)
to a signed 16-bit linear sample. -/
def st_ulaw2linear16 (b : Nat) : Int :=
  let u := 255 - b % 256
  let t : Nat := ((u % 16) * 8 + 132) <<< ((u / 16) % 8)
  if u ≥ 128 then (132 : Int) - (t : Int) else (t : Int) - 132

/-- The `search(val, seg_uend, 8)` helper from `audioop`: index of the first
entry of `[0x3F, 0x7F, 0xFF, 0x1FF, 0x3FF, 0x7FF, 0xFFF, 0x1FFF]` that is
`≥ val`, or 8 when none is. -/
def uSearch (val : Int) : Nat :=
  if val ≤ 0x3F then 0
  else if val ≤ 0x7F then 1
  else if val ≤ 0xFF then 2
  else if val ≤ 0x1FF then 3
  else if val ≤ 0x3FF then 4
  else if val ≤ 0x7FF then 5
  else if val ≤ 0xFFF then 6
  else if val ≤ 0x1FFF then 7
  else 8

/-- `st_14linear2ulaw` from `audioop`: encode a 14-bit signed linear sample
as one μ-law byte. -/
def st_14linear2ulaw (pcmIn : Int) : Nat :=
  let mask : Nat := if pcmIn < 0 then 0x7F else 0xFF
  let m0 : Int := if pcmIn < 0 then -pcmIn else pcmIn
  let m1 : Int := if m0 > 8159 then 8159 else m0
  let v : Int := m1 + 33
  let seg := uSearch v
  if seg ≥ 8 then 0x7F ^^^ mask
  else (((seg <<< 4) ||| ((v.toNat >>> (seg + 1)) &&& 0xF)) ^^^ mask)

/-- One sample of `audioop.lin2ulaw(_, 2)`: the 16-bit sample is arithmetic
shifted right by 2 (`GETSAMPLE32(...) >> 18`) and fed to
`st_14linear2ulaw`.  Arithmetic shift right by 2 on a signed value is
floor division by 4. -/
def lin2ulaw_sample (s : Int) : Nat :=
  st_14linear2ulaw (Int.fdiv s 4)

/-! ## Byte-level sample codecs (little-endian int16, as on x86) -/

/-- Reassemble a signed 16-bit sample from its little-endian byte pair. -/
def word16ToInt (lo hi : Nat) : Int :=
  let v : Int := (lo : Int) + 256 * (hi : Int)
  if v < 32768 then v else v - 65536

/-- Split a byte buffer into little-endian signed 16-bit samples
(consecutive byte pairs; a dangling odd byte is never reached because the
`Option` wrappers below reject odd lengths first). -/
def bytesToI16s : List Nat → List Int
  | lo :: hi :: rest => word16ToInt lo hi :: bytesToI16s rest
  | _ => []

/-- `numpy.frombuffer(bs, dtype=int16)` / the `audioop` width-2 frame
check: fails (raises) unless the byte length is a whole number of 16-bit
frames. -/
def npFromBufI16 (bs : List Nat) : Option (List Int) :=
  if bs.length % 2 = 0 then some (bytesToI16s bs) else none

/-- Reduce an integer to the signed 16-bit value with the same low 16 bits
(`numpy` `astype(int16)` wrap-around). -/
def wrap16 (v : Int) : Int :=
  let w := v % 65536
  if w < 32768 then w else w - 65536

/-- Serialize a signed 16-bit sample as its little-endian byte pair. -/
def i16ToBytes (v : Int) : List Nat :=
  let w := (v % 65536).toNat
  [w % 256, w / 256]

/-- `ndarray.tobytes()` for an int16 array. -/
def i16sToBytes (ss : List Int) : List Nat :=
  ss.flatMap i16ToBytes

/-! ## The four converters of `audiosocket_server.py` -/

/-- `ulaw_to_pcm16` (source lines 21-27): `audioop.ulaw2lin(ulaw_data, 2)`.
Each μ-law byte becomes one 16-bit sample, i.e. two output bytes. -/
def ulaw_to_pcm16 (ulaw_data : List Nat) : List Nat :=
  ulaw_data.flatMap (fun b => i16ToBytes (st_ulaw2linear16 b))

/-- `pcm16_to_ulaw` (source lines 30-36): `audioop.lin2ulaw(pcm_data, 2)`.
Fails (raises) on an odd byte length; otherwise each 16-bit sample becomes
one μ-law byte. -/
def pcm16_to_ulaw (pcm_data : List Nat) : Option (List Nat) :=
  (npFromBufI16 pcm_data).map (List.map lin2ulaw_sample)

/-- Model of `scipy.signal.resample(a, num)` restricted to its output-size
contract: the FFT resampler returns exactly `num` samples.  The numeric
values are not modelled (they are real-valued FFT interpolates); every
property verified below quantifies only over buffer lengths, and each
concrete evaluation below feeds an all-zero signal, on which the real
resampler also returns zeros. -/
def signal_resample (_a : List Int) (num : Nat) : List Int :=
  List.replicate num 0

/-- `resample_8k_to_16k` (source lines 39-52): `np.frombuffer` (fails on an
odd byte count), `signal.resample(a, len(a) * 2)`, `astype(int16)`,
`tobytes()`. -/
def resample_8k_to_16k (audio_8k : List Nat) : Option (List Nat) :=
  (npFromBufI16 audio_8k).map fun a =>
    i16sToBytes ((signal_resample a (a.length * 2)).map wrap16)

/-- `resample_16k_to_8k` (source lines 55-68): `np.frombuffer`,
`signal.resample(a, len(a) // 2)`, `astype(int16)`, `tobytes()`. -/
def resample_16k_to_8k (audio_16k : List Nat) : Option (List Nat) :=
  (npFromBufI16 audio_16k).map fun a =>
    i16sToBytes ((signal_resample a (a.length / 2)).map wrap16)

/-! ## Frame codec

Wire format (AudioSocket style): 1-byte type, 2-byte big-endian length,
then exactly `length` payload bytes.  Encoding is
`struct.pack('!BH', t, len(p)) + p`, which raises unless `t ≤ 255` and
`len(p) ≤ 65535`; decoding is `readexactly(3)`, `struct.unpack('!BH')`,
`readexactly(length)`, as in `receive_from_asterisk`. -/

/-- `struct.pack('!BH', t, len(p)) + p`: `none` models the `struct.error`
raised when a field is out of range. -/
def encodeFrame (t : Nat) (p : List Nat) : Option (List Nat) :=
  if t ≤ 255 ∧ p.length ≤ 65535 then
    some (t :: p.length / 256 :: p.length % 256 :: p)
  else none

/-- One frame decoded off the front of the stream: the type byte, the
payload (exactly the declared big-endian length), and the remaining
stream; `none` models `IncompleteReadError` (stream too short). -/
def decodeFrame (s : List Nat) : Option (Nat × List Nat × List Nat) :=
  match s with
  | t :: hi :: lo :: rest =>
    let n := hi * 256 + lo
    if n ≤ rest.length then some (t, rest.take n, rest.drop n) else none
  | _ => none

/-! ## Format dispatch (transcoding) -/

/-- The ingest-side format dispatch of `receive_from_asterisk` (source
lines 186-198), for one 160-byte telephony μ-law payload, given the
negotiated `user_input_audio_format` (already defaulted to `mulaw_8000`
when the attribute is unset).  `none` models an exception caught by the
surrounding `try` (the frame is then skipped, not forwarded). -/
def transcodeIn (fmt : String) (audio_data : List Nat) : Option (List Nat) :=
  if fmt = "mulaw_8000" ∨ fmt = "ulaw_8000" then some audio_data
  else if fmt = "pcm_8000" then some (ulaw_to_pcm16 audio_data)
  else if fmt = "pcm_16000" then resample_8k_to_16k (ulaw_to_pcm16 audio_data)
  else some audio_data

/-- The egress-side format dispatch of `send_to_asterisk` (source lines
248-259), given the negotiated `agent_output_audio_format`: unknown
formats take the `pcm_16000` fallback path (resample to 8 kHz, then
μ-law).  `none` models an exception caught by the task-level `except`. -/
def transcodeOut (fmt : String) (full_audio : List Nat) : Option (List Nat) :=
  if fmt = "mulaw_8000" ∨ fmt = "ulaw_8000" then some full_audio
  else if fmt = "pcm_8000" then pcm16_to_ulaw full_audio
  else if fmt = "pcm_16000" then (resample_16k_to_8k full_audio).bind pcm16_to_ulaw
  else (resample_16k_to_8k full_audio).bind pcm16_to_ulaw

/-! ## Egress path (`send_to_asterisk`, source lines 227-288) -/

/-- The chunking loop `for offset in range(0, len(a), 160)` of
`send_to_asterisk`: successive slices of at most 160 bytes. -/
def chunksOf160 (xs : List Nat) : List (List Nat) :=
  if h : xs = [] then [] else xs.take 160 :: chunksOf160 (xs.drop 160)
termination_by xs.length
decreasing_by
  have hpos : 0 < xs.length := List.length_pos.mpr h
  simp only [List.length_drop]
  omega

/-- `send_to_asterisk` for one agent turn: the `(type, payload)` pairs of
the telephony frames written (`struct.pack('!BH', 0x10, len(chunk)) +
chunk` for each chunk).  The empty-chunk-list early return and the
exception path (`none` from transcoding, after which the `except` handler
writes nothing) produce no frames. -/
def send_to_asterisk (fmt : String) (audio_chunks : List (List Nat)) :
    List (Nat × List Nat) :=
  if audio_chunks.isEmpty then []
  else
    match transcodeOut fmt audio_chunks.flatten with
    | none => []
    | some audio_for_asterisk =>
      (chunksOf160 audio_for_asterisk).map (fun c => (0x10, c))

/-! ## Ingest path (`receive_from_asterisk`, source lines 139-225)

The observable interactions with the agent session are modelled as a
trace of effects: each successfully transcoded audio payload submitted
via `elevenlabs.send_audio`, and each `elevenlabs.end_user_turn()`
(turn-end) call. -/

/-- One observable call on the agent session made by the ingest unit. -/
inductive Effect where
  | sentAudio (payload : List Nat) : Effect
  | endUserTurn : Effect
deriving DecidableEq

/-- The `while True` frame loop of `receive_from_asterisk` (source lines
161-214), run on the remaining stream bytes with the current
`frame_count`.  Returns the effect trace, the final `frame_count`, and
whether the loop exited by `break` on a Hangup frame (`true`) rather than
by an exception escaping a `readexactly` (`false`, the
`IncompleteReadError` path).  An Audio frame (`0x10`) reads its declared
payload and forwards the transcoded bytes (a transcoding exception is
caught and the frame skipped); a Hangup frame (`0x00`) calls
`end_user_turn` and breaks; any other type is only logged — its payload
is NOT consumed — and the loop reads the next header immediately after
the 3 header bytes. -/
def frameLoop (fmt : String) (s : List Nat) (cnt : Nat) :
    List Effect × Nat × Bool :=
  match s with
  | t :: hi :: lo :: rest =>
    if t = 0x10 then
      if h : hi * 256 + lo ≤ rest.length then
        let payload := rest.take (hi * 256 + lo)
        let eff : List Effect :=
          match transcodeIn fmt payload with
          | some pl => [Effect.sentAudio pl]
          | none => []
        let r := frameLoop fmt (rest.drop (hi * 256 + lo)) (cnt + 1)
        (eff ++ r.1, r.2.1, r.2.2)
      else ([], cnt, false)
    else if t = 0x00 then
      ([Effect.endUserTurn], cnt, true)
    else
      frameLoop fmt rest cnt
  | _ => ([], cnt, false)
termination_by s.length
decreasing_by
  · simp only [List.length_cons, List.length_drop]
    omega
  · simp only [List.length_cons]
    omega

/-- `receive_from_asterisk`: reads the initial header; a `0x01` header
consumes its declared UUID payload (any other first type is only warned
about, leaving the stream at its payload); then runs the frame loop.
The post-loop code (`if frame_count > 0: await elevenlabs.end_user_turn()`,
source lines 216-220) runs only when the loop exited by `break` — when a
`readexactly` raises `IncompleteReadError`, control jumps to the `except`
handler, which only logs. -/
def receive_from_asterisk (fmt : String) (s : List Nat) : List Effect :=
  match s with
  | ut :: uhi :: ulo :: rest =>
    let afterUuid : Option (List Nat) :=
      if ut = 0x01 then
        if uhi * 256 + ulo ≤ rest.length then
          some (rest.drop (uhi * 256 + ulo))
        else none
      else some rest
    match afterUuid with
    | none => []
    | some s2 =>
      let r := frameLoop fmt s2 0
      if r.2.2 then
        r.1 ++ (if r.2.1 > 0 then [Effect.endUserTurn] else [])
      else r.1
  | _ => []

/-- Number of turn-end signals in an ingest effect trace. -/
def countTurnEnds (effs : List Effect) : Nat :=
  effs.count Effect.endUserTurn

/-- Variant of `frameLoop` written from the spec's words for the
unknown-frame sentence ("payload still consumed using the declared
length"): identical to `frameLoop` except that an unrecognized frame type
skips over its declared payload before reading the next header.  Used
only to exhibit where the code diverges from that sentence. -/
def frameLoopSpecSkip (fmt : String) (s : List Nat) (cnt : Nat) :
    List Effect × Nat × Bool :=
  match s with
  | t :: hi :: lo :: rest =>
    if t = 0x10 then
      if h : hi * 256 + lo ≤ rest.length then
        let payload := rest.take (hi * 256 + lo)
        let eff : List Effect :=
          match transcodeIn fmt payload with
          | some pl => [Effect.sentAudio pl]
          | none => []
        let r := frameLoopSpecSkip fmt (rest.drop (hi * 256 + lo)) (cnt + 1)
        (eff ++ r.1, r.2.1, r.2.2)
      else ([], cnt, false)
    else if t = 0x00 then
      ([Effect.endUserTurn], cnt, true)
    else
      if hi * 256 + lo ≤ rest.length then
        frameLoopSpecSkip fmt (rest.drop (hi * 256 + lo)) cnt
      else ([], cnt, false)
  | _ => ([], cnt, false)
termination_by s.length
decreasing_by
  · simp only [List.length_cons, List.length_drop]
    omega
  · simp only [List.length_cons, List.length_drop]
    omega

/-! ## Wire-format frame builders (spec §6, bit-exact table)

Concrete byte strings used to build test streams: a 3-byte header with a
big-endian length, then the payload.  These are input constructions
(what Asterisk puts on the wire), meaningful for payloads ≤ 65535
bytes. -/

/-- The bytes of a type-`0x10` Audio frame carrying payload `p`. -/
def audioFrameBytes (p : List Nat) : List Nat :=
  0x10 :: p.length / 256 :: p.length % 256 :: p

/-- The bytes of a type-`0x00` Hangup frame (no payload). -/
def hangupFrameBytes : List Nat :=
  [0x00, 0, 0]

/-- The bytes of the initial type-`0x01` SessionId/UUID frame carrying
identifier bytes `u`. -/
def uuidFrameBytes (u : List Nat) : List Nat :=
  0x01 :: u.length / 256 :: u.length % 256 :: u

/-! ## Agent event loop (`elevenlabs_conv_ai.py`)

`receive_response` (source lines 113-185) drains inbound agent events
until `agent_response_end`, an `error` event, or a receive timeout (here:
the end of the event list).  Inbound messages are modelled after their
already-decoded content; `audio` carries the base64-decoded payload (the
code skips the chunk when the base64 string is empty, i.e. the payload is
empty), `ping` carries its `event_id`.  The model also records every
message the loop sends back over the WebSocket — the code sends none. -/

/-- A message the event loop could send to the agent service. -/
inductive OutMsg where
  | pong (eventId : Nat) : OutMsg
deriving DecidableEq

/-- An inbound agent event, keyed by its `type` field. -/
inductive AgentEvent where
  | audio (payload : List Nat) : AgentEvent
  | agentResponse (text : String) : AgentEvent
  | userTranscript (text : String) : AgentEvent
  | vadScore : AgentEvent
  | transcript (text : String) : AgentEvent
  | agentResponseEnd : AgentEvent
  | ping (eventId : Nat) : AgentEvent
  | error : AgentEvent
  | other : AgentEvent
deriving DecidableEq

/-- The receive loop of `ElevenLabsConvAI.receive_response`, carrying the
accumulated `text` and `audio_chunks`.  Returns
`(text, audio_chunks, sent)` where `sent` lists every outbound message
the loop produced.  `ping` is handled by `pass` (source lines 172-174);
`user_transcript` and `vad_score` only print; unknown types fall through
silently; exhausting the list is the `asyncio.TimeoutError` path, which
returns the accumulated state. -/
def receiveLoop (text : String) (chunks : List (List Nat)) :
    List AgentEvent → String × List (List Nat) × List OutMsg
  | [] => (text, chunks, [])
  | ev :: evs =>
    match ev with
    | .audio payload =>
      if payload.isEmpty then receiveLoop text chunks evs
      else receiveLoop text (chunks ++ [payload]) evs
    | .agentResponse t =>
      if t = "" then receiveLoop text chunks evs
      else receiveLoop (text ++ t) chunks evs
    | .userTranscript _ => receiveLoop text chunks evs
    | .vadScore => receiveLoop text chunks evs
    | .transcript t =>
      if t = "" then receiveLoop text chunks evs
      else receiveLoop (text ++ t) chunks evs
    | .agentResponseEnd => (text, chunks, [])
    | .ping _ => receiveLoop text chunks evs
    | .error => (text, chunks, [])
    | .other => receiveLoop text chunks evs

/-- `receive_response`: run the receive loop from the empty state. -/
def receive_response (evs : List AgentEvent) :
    String × List (List Nat) × List OutMsg :=
  receiveLoop "" [] evs

/-! ## Helper lemmas: byte-length accounting -/

theorem bytesToI16s_length (bs : List Nat) :
    (bytesToI16s bs).length = bs.length / 2 := by
  match bs with
  | [] => rfl
  | [x] => simp [bytesToI16s]
  | lo :: hi :: rest =>
    have ih := bytesToI16s_length rest
    simp only [bytesToI16s, List.length_cons, ih]
    omega

theorem i16ToBytes_length (v : Int) : (i16ToBytes v).length = 2 := rfl

theorem i16sToBytes_length (ss : List Int) :
    (i16sToBytes ss).length = 2 * ss.length := by
  induction ss with
  | nil => rfl
  | cons v t ih =>
    simp only [i16sToBytes, List.flatMap_cons, List.length_append,
      i16ToBytes_length, List.length_cons] at *
    omega

theorem ulaw_to_pcm16_length (u : List Nat) :
    (ulaw_to_pcm16 u).length = 2 * u.length := by
  induction u with
  | nil => rfl
  | cons b t ih =>
    simp only [ulaw_to_pcm16, List.flatMap_cons, List.length_append,
      i16ToBytes_length, List.length_cons] at *
    omega

theorem pcm16_to_ulaw_spec (p : List Nat) (h : p.length % 2 = 0) :
    pcm16_to_ulaw p = some ((bytesToI16s p).map lin2ulaw_sample) ∧
      ((bytesToI16s p).map lin2ulaw_sample).length = p.length / 2 := by
  constructor
  · simp [pcm16_to_ulaw, npFromBufI16, h]
  · simp [bytesToI16s_length]

theorem resample_8k_to_16k_spec (x : List Nat) (h : x.length % 2 = 0) :
    ∃ y, resample_8k_to_16k x = some y ∧ y.length = 2 * x.length := by
  have hx : resample_8k_to_16k x =
      some (i16sToBytes ((signal_resample (bytesToI16s x)
        ((bytesToI16s x).length * 2)).map wrap16)) := by
    simp [resample_8k_to_16k, npFromBufI16, h]
  refine ⟨_, hx, ?_⟩
  simp only [i16sToBytes_length, List.length_map, signal_resample,
    List.length_replicate, bytesToI16s_length]
  omega

theorem resample_16k_to_8k_spec (x : List Nat) (h : x.length % 2 = 0) :
    ∃ y, resample_16k_to_8k x = some y ∧ y.length = 2 * (x.length / 4) := by
  have hx : resample_16k_to_8k x =
      some (i16sToBytes ((signal_resample (bytesToI16s x)
        ((bytesToI16s x).length / 2)).map wrap16)) := by
    simp [resample_16k_to_8k, npFromBufI16, h]
  refine ⟨_, hx, ?_⟩
  simp only [i16sToBytes_length, List.length_map, signal_resample,
    List.length_replicate, bytesToI16s_length]
  omega

/-! ## Helper lemmas: egress chunking -/

theorem chunksOf160_flatten (xs : List Nat) :
    (chunksOf160 xs).flatten = xs := by
  by_cases h : xs = []
  · subst h
    simp [chunksOf160]
  · have ih := chunksOf160_flatten (xs.drop 160)
    rw [chunksOf160, dif_neg h]
    simp [ih]
termination_by xs.length
decreasing_by
  have hpos : 0 < xs.length := List.length_pos.mpr h
  simp only [List.length_drop]
  omega

theorem chunksOf160_mem_le (xs : List Nat) :
    ∀ c ∈ chunksOf160 xs, c.length ≤ 160 := by
  by_cases h : xs = []
  · subst h
    simp [chunksOf160]
  · have ih := chunksOf160_mem_le (xs.drop 160)
    rw [chunksOf160, dif_neg h]
    intro c hc
    rcases List.mem_cons.mp hc with h1 | h2
    · subst h1
      simp [List.length_take]
    · exact ih c h2
termination_by xs.length
decreasing_by
  have hpos : 0 < xs.length := List.length_pos.mpr h
  simp only [List.length_drop]
  omega

theorem chunksOf160_length_sum (xs : List Nat) :
    ((chunksOf160 xs).map List.length).sum = xs.length := by
  rw [← List.length_flatten, chunksOf160_flatten]

/-! ## Helper lemmas: format dispatch -/

theorem transcodeIn_mulaw (p : List Nat) :
    transcodeIn "mulaw_8000" p = some p := by
  simp [transcodeIn]

theorem transcodeIn_unknown (fmt : String) (p : List Nat)
    (h1 : fmt ≠ "mulaw_8000") (h2 : fmt ≠ "ulaw_8000")
    (h3 : fmt ≠ "pcm_8000") (h4 : fmt ≠ "pcm_16000") :
    transcodeIn fmt p = some p := by
  simp [transcodeIn, h1, h2, h3, h4]

theorem transcodeOut_unknown (fmt : String) (p : List Nat)
    (h1 : fmt ≠ "mulaw_8000") (h2 : fmt ≠ "ulaw_8000")
    (h3 : fmt ≠ "pcm_8000") (h4 : fmt ≠ "pcm_16000") :
    transcodeOut fmt p = transcodeOut "pcm_16000" p := by
  simp [transcodeOut, h1, h2, h3, h4]

theorem transcodeOut_pcm16000_spec (c : List Nat) (h : c.length % 2 = 0) :
    ∃ u, transcodeOut "pcm_16000" c = some u ∧ u.length = c.length / 4 := by
  obtain ⟨y, hy, hylen⟩ := resample_16k_to_8k_spec c h
  have hyeven : y.length % 2 = 0 := by omega
  obtain ⟨hu, hulen⟩ := pcm16_to_ulaw_spec y hyeven
  refine ⟨(bytesToI16s y).map lin2ulaw_sample, ?_, ?_⟩
  · simp [transcodeOut, hy, hu]
  · omega

/-! ## Helper lemmas: ingest frame loop -/

theorem frameLoop_nil (fmt : String) (cnt : Nat) :
    frameLoop fmt [] cnt = ([], cnt, false) := by
  simp [frameLoop]

theorem frameLoop_hangup (fmt : String) (hi lo : Nat) (rest : List Nat)
    (cnt : Nat) :
    frameLoop fmt (0x00 :: hi :: lo :: rest) cnt =
      ([Effect.endUserTurn], cnt, true) := by
  simp [frameLoop]

theorem frameLoop_unknown (fmt : String) (t hi lo : Nat) (rest : List Nat)
    (cnt : Nat) (h1 : t ≠ 0x10) (h2 : t ≠ 0x00) :
    frameLoop fmt (t :: hi :: lo :: rest) cnt = frameLoop fmt rest cnt := by
  rw [frameLoop]
  simp [h1, h2]

theorem frameLoop_audio (fmt : String) (p s : List Nat) (cnt : Nat)
    (hp : p.length ≤ 65535) :
    frameLoop fmt (audioFrameBytes p ++ s) cnt =
      ((match transcodeIn fmt p with
        | some pl => [Effect.sentAudio pl]
        | none => []) ++ (frameLoop fmt s (cnt + 1)).1,
       (frameLoop fmt s (cnt + 1)).2) := by
  have hlen : p.length / 256 * 256 + p.length % 256 = p.length := by omega
  have hle : p.length / 256 * 256 + p.length % 256 ≤ (p ++ s).length := by
    simp only [List.length_append]
    omega
  rw [audioFrameBytes, List.cons_append, List.cons_append, List.cons_append,
    frameLoop]
  simp only [reduceIte, hlen, List.take_left, List.drop_left]
  rw [dif_pos (by simp only [List.length_append]; omega :
    p.length ≤ (p ++ s).length)]

/-- Running the loop over a run of μ-law Audio frames: each payload is
forwarded verbatim (`transcodeIn "mulaw_8000"` is the identity) and
`frame_count` advances by the number of frames. -/
theorem frameLoop_audioSeq (ps : List (List Nat)) (s : List Nat) (cnt : Nat)
    (h : ∀ p ∈ ps, p.length ≤ 65535) :
    frameLoop "mulaw_8000" (ps.flatMap audioFrameBytes ++ s) cnt =
      (ps.map Effect.sentAudio ++
         (frameLoop "mulaw_8000" s (cnt + ps.length)).1,
       (frameLoop "mulaw_8000" s (cnt + ps.length)).2) := by
  induction ps generalizing cnt with
  | nil => simp
  | cons p t ih =>
    have harith : cnt + 1 + t.length = cnt + (t.length + 1) := by omega
    rw [List.flatMap_cons, List.append_assoc,
      frameLoop_audio _ _ _ _ (h p (by simp)),
      ih (cnt + 1) (fun q hq => h q (by simp [hq])), harith]
    simp [transcodeIn_mulaw]

/-- Decoding a stream that starts with the SessionId/UUID frame: the UUID
payload is consumed and the frame loop processes the remainder; the
post-loop turn-end runs only on the Hangup-`break` exit. -/
theorem receive_uuid (fmt : String) (u s2 : List Nat)
    (hu : u.length ≤ 65535) :
    receive_from_asterisk fmt (uuidFrameBytes u ++ s2) =
      (if (frameLoop fmt s2 0).2.2 then
        (frameLoop fmt s2 0).1 ++
          (if (frameLoop fmt s2 0).2.1 > 0 then [Effect.endUserTurn] else [])
      else (frameLoop fmt s2 0).1) := by
  have hlen : u.length / 256 * 256 + u.length % 256 = u.length := by omega
  have hle : u.length ≤ (u ++ s2).length := by
    simp only [List.length_append]
    omega
  rw [uuidFrameBytes, List.cons_append, List.cons_append, List.cons_append,
    receive_from_asterisk]
  simp only [reduceIte, hlen, hle, if_pos, List.drop_left]

/-- A run of forwarded-audio effects contains no turn-end signal. -/
theorem countTurnEnds_map_sentAudio (ps : List (List Nat)) :
    countTurnEnds (ps.map Effect.sentAudio) = 0 := by
  simp [countTurnEnds, List.count_eq_zero]

/-- Every frame the egress path writes has type `0x10` and a payload of
at most 160 bytes, for every format and chunk list. -/
theorem send_to_asterisk_frame_shape (fmt : String)
    (audio_chunks : List (List Nat)) :
    ∀ f ∈ send_to_asterisk fmt audio_chunks,
      f.1 = 0x10 ∧ f.2.length ≤ 160 := by
  intro f hf
  unfold send_to_asterisk at hf
  split at hf
  · simp at hf
  · split at hf
    · simp at hf
    · rename_i u _
      obtain ⟨c, hc, hfc⟩ := List.mem_map.mp hf
      exact hfc ▸ ⟨rfl, chunksOf160_mem_le u c hc⟩

/-- For a single 3200-byte `pcm_16000` agent chunk, the frame payloads
written by the egress path total exactly 800 bytes. -/
theorem send_pcm16000_sum_3200 (c : List Nat) (hc : c.length = 3200) :
    ((send_to_asterisk "pcm_16000" [c]).map (fun f => f.2.length)).sum
      = 800 := by
  have heven : c.length % 2 = 0 := by omega
  obtain ⟨u, hu, hulen⟩ := transcodeOut_pcm16000_spec c heven
  have hflat : ([c] : List (List Nat)).flatten = c := by simp
  have hsend : send_to_asterisk "pcm_16000" [c] =
      (chunksOf160 u).map (fun ch => (0x10, ch)) := by
    unfold send_to_asterisk
    rw [hflat, hu]
    rfl
  rw [hsend, List.map_map]
  have : ((fun f : Nat × List Nat => f.2.length) ∘ fun ch => (0x10, ch))
      = List.length := rfl
  rw [this, chunksOf160_length_sum, hulen, hc]

/-- The agent event loop never sends anything back over the WebSocket. -/
theorem receiveLoop_sent_nil (evs : List AgentEvent) (text : String)
    (chunks : List (List Nat)) :
    (receiveLoop text chunks evs).2.2 = [] := by
  induction evs generalizing text chunks with
  | nil => rfl
  | cons ev evs ih =>
    cases ev <;> simp only [receiveLoop] <;>
      first
        | rfl
        | apply ih
        | (split <;> apply ih)

/-! ## Claim theorems -/

/-- C3: for every frame type `t ≤ 255` and payload `p` with
`len(p) ≤ 65535`, decoding the encoded frame — 1-byte type, 2-byte
big-endian length, then the payload — returns exactly `(t, p)` with the
whole payload consumed (empty remainder). -/
theorem frame_roundtrip (t : Nat) (p : List Nat)
    (ht : t ≤ 255) (hp : p.length ≤ 65535) :
    ∃ bs, encodeFrame t p = some bs ∧ decodeFrame bs = some (t, p, []) := by
  have hlen : p.length / 256 * 256 + p.length % 256 = p.length := by omega
  refine ⟨t :: p.length / 256 :: p.length % 256 :: p, ?_, ?_⟩
  · simp [encodeFrame, ht, hp]
  · simp [decodeFrame, hlen]

theorem frame_roundtrip_witness :
    ∃ bs, encodeFrame 0x10 [1, 2, 3] = some bs ∧
      decodeFrame bs = some (0x10, [1, 2, 3], []) :=
  frame_roundtrip 0x10 [1, 2, 3] (by decide) (by decide)

/-- C5: for every even-length PCM16 byte buffer, the 8 kHz→16 kHz
resampler yields exactly twice as many bytes, and feeding that result to
the 16 kHz→8 kHz resampler yields exactly the original byte length. -/
theorem resample_length_law (x : List Nat) (h : x.length % 2 = 0) :
    ∃ y, resample_8k_to_16k x = some y ∧ y.length = 2 * x.length ∧
      ∃ z, resample_16k_to_8k y = some z ∧ z.length = x.length := by
  obtain ⟨y, hy, hylen⟩ := resample_8k_to_16k_spec x h
  have hyeven : y.length % 2 = 0 := by omega
  obtain ⟨z, hz, hzlen⟩ := resample_16k_to_8k_spec y hyeven
  exact ⟨y, hy, hylen, z, hz, by omega⟩

theorem resample_length_law_witness :
    ∃ y, resample_8k_to_16k [0, 0, 0, 0] = some y ∧
      y.length = 2 * [0, 0, 0, 0].length ∧
      ∃ z, resample_16k_to_8k y = some z ∧ z.length = [0, 0, 0, 0].length :=
  resample_length_law [0, 0, 0, 0] (by decide)

/-- C10 (implicit length law): μ-law→PCM16 returns exactly `2*n` bytes
for every `n`-byte input, and PCM16→μ-law returns exactly `n/2` bytes for
every even `n`-byte input. -/
theorem companding_length_law :
    (∀ u : List Nat, (ulaw_to_pcm16 u).length = 2 * u.length) ∧
      (∀ p : List Nat, p.length % 2 = 0 →
        ∃ r, pcm16_to_ulaw p = some r ∧ r.length = p.length / 2) := by
  refine ⟨ulaw_to_pcm16_length, fun p hp => ?_⟩
  obtain ⟨h1, h2⟩ := pcm16_to_ulaw_spec p hp
  exact ⟨_, h1, h2⟩

theorem companding_length_law_witness :
    (ulaw_to_pcm16 (List.replicate 160 0)).length = 320 ∧
      ∃ r, pcm16_to_ulaw [0, 0] = some r ∧ r.length = 1 :=
  ⟨by simpa using companding_length_law.1 (List.replicate 160 0),
   companding_length_law.2 [0, 0] (by decide)⟩

set_option maxRecDepth 100000 in
/-- C9: for every μ-law byte `b`, the byte produced by decoding `b` to
linear PCM16 and re-encoding represents the same quantization level —
the re-encoded byte decodes to exactly the same linear value (zero code
steps away, hence within one code step), and is bit-identical to `b`
except for the single negative-zero alias `0x7F ↦ 0xFF`. -/
theorem ulaw_roundtrip (b : Nat) (hb : b < 256) :
    pcm16_to_ulaw (ulaw_to_pcm16 [b]) =
        some [lin2ulaw_sample (st_ulaw2linear16 b)] ∧
      st_ulaw2linear16 (lin2ulaw_sample (st_ulaw2linear16 b)) =
        st_ulaw2linear16 b ∧
      (b ≠ 0x7F → lin2ulaw_sample (st_ulaw2linear16 b) = b) := by
  revert hb
  revert b
  decide

theorem ulaw_roundtrip_witness :
    pcm16_to_ulaw (ulaw_to_pcm16 [0]) =
        some [lin2ulaw_sample (st_ulaw2linear16 0)] ∧
      st_ulaw2linear16 (lin2ulaw_sample (st_ulaw2linear16 0)) =
        st_ulaw2linear16 0 ∧
      ((0 : Nat) ≠ 0x7F → lin2ulaw_sample (st_ulaw2linear16 0) = 0) :=
  ulaw_roundtrip 0 (by decide)

/-- C1 counterexample: the decode loop does NOT consume an unknown
frame's declared payload.  On the stream holding an unknown frame
(type `0x42`, declared length 3, payload `[0,0,0]`) followed by an Audio
frame with payload `[7]`, the code re-reads the unknown frame's payload
bytes as the next header — `[0,0,0]` parses as a Hangup, so the loop
signals a turn end and never sees the audio frame — whereas the
spec-described loop (`frameLoopSpecSkip`, payload consumed) forwards the
audio payload. -/
theorem unknown_frame_consumption_counterexample :
    frameLoop "mulaw_8000" [0x42, 0, 3, 0, 0, 0, 0x10, 0, 1, 7] 0 =
        ([Effect.endUserTurn], 0, true) ∧
      frameLoopSpecSkip "mulaw_8000" [0x42, 0, 3, 0, 0, 0, 0x10, 0, 1, 7] 0 =
        ([Effect.sentAudio [7]], 1, false) := by
  constructor
  · rw [frameLoop_unknown "mulaw_8000" 0x42 0 3 _ 0 (by decide) (by decide)]
    exact frameLoop_hangup "mulaw_8000" 0 0 [0x10, 0, 1, 7] 0
  · rw [frameLoopSpecSkip]
    simp only [reduceIte, List.length_cons, List.length_nil]
    rw [dif_pos (by omega)]
    simp [frameLoopSpecSkip, transcodeIn_mulaw]

/-- C1 (amended): a header whose frame type is not Audio (`0x10`) and not
Hangup (`0x00`) is logged and skipped and the loop continues — but only
the 3 header bytes are consumed: the declared payload is NOT skipped, so
the next header read begins at the first payload byte. -/
theorem unknown_frame_skips_header_only (fmt : String) (t hi lo : Nat)
    (rest : List Nat) (cnt : Nat) (h1 : t ≠ 0x10) (h2 : t ≠ 0x00) :
    frameLoop fmt (t :: hi :: lo :: rest) cnt = frameLoop fmt rest cnt :=
  frameLoop_unknown fmt t hi lo rest cnt h1 h2

theorem unknown_frame_skips_header_only_witness :
    frameLoop "mulaw_8000" [0x42, 0, 2, 9, 9] 0 =
      frameLoop "mulaw_8000" [9, 9] 0 :=
  unknown_frame_skips_header_only "mulaw_8000" 0x42 0 2 [9, 9] 0
    (by decide) (by decide)

/-- C2: a SessionId frame, then any positive number of Audio frames, then
a Hangup frame — the ingest loop signals `end_user_turn` exactly TWICE,
not once: once from the Hangup branch and a second time from the
post-loop block (whose guard is `frame_count > 0`, not "no hangup seen"
as its own comment states). -/
theorem hangup_turn_end_twice (ps : List (List Nat)) (u : List Nat)
    (hne : ps ≠ []) (hp : ∀ p ∈ ps, p.length ≤ 65535)
    (hu : u.length ≤ 65535) :
    countTurnEnds (receive_from_asterisk "mulaw_8000"
      (uuidFrameBytes u ++ (ps.flatMap audioFrameBytes ++ hangupFrameBytes)))
      = 2 := by
  rw [receive_uuid _ _ _ hu, frameLoop_audioSeq ps hangupFrameBytes 0 hp,
    show hangupFrameBytes = 0x00 :: 0 :: 0 :: [] from rfl,
    frameLoop_hangup "mulaw_8000" 0 0 [] (0 + ps.length)]
  have hpos : 0 < ps.length := List.length_pos.mpr hne
  simp only [Nat.zero_add, gt_iff_lt, hpos, if_pos, if_true]
  simp [countTurnEnds, List.count_append, List.count_eq_zero,
    List.count_singleton]

theorem hangup_turn_end_twice_witness :
    countTurnEnds (receive_from_asterisk "mulaw_8000"
      (uuidFrameBytes [1] ++
        ([[7]].flatMap audioFrameBytes ++ hangupFrameBytes))) = 2 :=
  hangup_turn_end_twice [[7]] [1] (by decide) (by decide) (by decide)

/-- C6: when the stream ends abruptly (EOF) after the SessionId frame and
a non-empty run of Audio frames, `readexactly` raises
`IncompleteReadError`, the `except` handler only logs, and NO final
`end_user_turn` is signalled — the effect trace is exactly the forwarded
audio, with zero turn-end signals, contrary to the claim. -/
theorem abrupt_end_no_turn_end (ps : List (List Nat)) (u : List Nat)
    (hne : ps ≠ []) (hp : ∀ p ∈ ps, p.length ≤ 65535)
    (hu : u.length ≤ 65535) :
    receive_from_asterisk "mulaw_8000"
        (uuidFrameBytes u ++ ps.flatMap audioFrameBytes) =
        ps.map Effect.sentAudio ∧
      countTurnEnds (receive_from_asterisk "mulaw_8000"
        (uuidFrameBytes u ++ ps.flatMap audioFrameBytes)) = 0 := by
  have hchar : receive_from_asterisk "mulaw_8000"
      (uuidFrameBytes u ++ ps.flatMap audioFrameBytes) =
      ps.map Effect.sentAudio := by
    rw [receive_uuid _ _ _ hu,
      show ps.flatMap audioFrameBytes
        = ps.flatMap audioFrameBytes ++ [] by simp,
      frameLoop_audioSeq ps [] 0 hp, frameLoop_nil]
    simp
  exact ⟨hchar, by rw [hchar]; exact countTurnEnds_map_sentAudio ps⟩

theorem abrupt_end_no_turn_end_witness :
    receive_from_asterisk "mulaw_8000"
        (uuidFrameBytes [1] ++ [[7]].flatMap audioFrameBytes) =
        [[7]].map Effect.sentAudio ∧
      countTurnEnds (receive_from_asterisk "mulaw_8000"
        (uuidFrameBytes [1] ++ [[7]].flatMap audioFrameBytes)) = 0 :=
  abrupt_end_no_turn_end [[7]] [1] (by decide) (by decide) (by decide)

/-- C4 counterexample: for the single 3200-byte `pcm_16000` agent chunk
(all-zero samples, on which the real resampler also returns zeros), the
frame payloads written to telephony total 800 bytes, not the 1600 the
claim states — 1600 is the size of the intermediate 8 kHz PCM16 buffer
before μ-law companding halves it. -/
theorem egress_pcm16000_total_not_1600 :
    ((send_to_asterisk "pcm_16000" [List.replicate 3200 0]).map
        (fun f => f.2.length)).sum = 800 ∧
      ¬ ((send_to_asterisk "pcm_16000" [List.replicate 3200 0]).map
        (fun f => f.2.length)).sum = 1600 := by
  have h := send_pcm16000_sum_3200 (List.replicate 3200 0) (by rw [List.length_replicate])
  exact ⟨h, by omega⟩

/-- C4 (amended): when `agent_output_audio_format` is `pcm_16000` and the
agent produces a single 3200-byte chunk, the egress path writes only
Audio frames of type `0x10` with payloads of at most 160 bytes each,
totalling 800 bytes (the 16 kHz→8 kHz conversion leaves 1600 PCM16
bytes, which μ-law companding reduces to 800 wire bytes). -/
theorem egress_pcm16000_3200_frames (c : List Nat) (hc : c.length = 3200) :
    (∀ f ∈ send_to_asterisk "pcm_16000" [c],
        f.1 = 0x10 ∧ f.2.length ≤ 160) ∧
      ((send_to_asterisk "pcm_16000" [c]).map (fun f => f.2.length)).sum
        = 800 :=
  ⟨send_to_asterisk_frame_shape "pcm_16000" [c],
   send_pcm16000_sum_3200 c hc⟩

theorem egress_pcm16000_3200_frames_witness :
    (∀ f ∈ send_to_asterisk "pcm_16000" [List.replicate 3200 1],
        f.1 = 0x10 ∧ f.2.length ≤ 160) ∧
      ((send_to_asterisk "pcm_16000" [List.replicate 3200 1]).map
        (fun f => f.2.length)).sum = 800 :=
  egress_pcm16000_3200_frames (List.replicate 3200 1) (by rw [List.length_replicate])

/-- C7 counterexample: a `ping` event with `event_id` 5 is processed and
the loop sends nothing back — in particular no `pong` carrying that
`event_id` (the `ping` branch is `pass`). -/
theorem ping_no_pong_counterexample :
    receive_response [AgentEvent.ping 5] = ("", [], []) ∧
      OutMsg.pong 5 ∉ (receive_response [AgentEvent.ping 5]).2.2 := by
  constructor <;> decide

/-- C7 (amended): `ping` events are ignored, not acknowledged: processing
a `ping` leaves the loop state unchanged and continues with the next
event, and the event loop never sends any message (in particular no
`pong`) for any inbound event sequence. -/
theorem ping_ignored_no_pong :
    (∀ (i : Nat) (evs : List AgentEvent),
        receive_response (AgentEvent.ping i :: evs) = receive_response evs) ∧
      (∀ evs : List AgentEvent, (receive_response evs).2.2 = []) :=
  ⟨fun _ _ => rfl, fun evs => receiveLoop_sent_nil evs "" []⟩

/-- C8 counterexample: on the to-telephony path with unknown target
format `"opus_48000"`, the payload `[0,0,0,0]` (two zero PCM16 samples,
on which the real resampler also returns zeros) is NOT forwarded
unchanged: the fallback converts it to the single μ-law byte `0xFF`. -/
theorem unknown_format_egress_changes_payload :
    transcodeOut "opus_48000" [0, 0, 0, 0] = some [255] ∧
      transcodeOut "opus_48000" [0, 0, 0, 0] ≠ some [0, 0, 0, 0] := by
  constructor <;> decide

/-- C8 (amended): for an unknown/unsupported target format, the ingest
path forwards the payload unchanged (with a warning), while the egress
path does not forward it unchanged but falls back to the `pcm_16000`
conversion (16 kHz→8 kHz resample, then μ-law); in both directions the
dispatch itself never escapes the session (exceptions are caught by the
surrounding handlers). -/
theorem unknown_format_dispatch (fmt : String) (p : List Nat)
    (h1 : fmt ≠ "mulaw_8000") (h2 : fmt ≠ "ulaw_8000")
    (h3 : fmt ≠ "pcm_8000") (h4 : fmt ≠ "pcm_16000") :
    transcodeIn fmt p = some p ∧
      transcodeOut fmt p = transcodeOut "pcm_16000" p :=
  ⟨transcodeIn_unknown fmt p h1 h2 h3 h4,
   transcodeOut_unknown fmt p h1 h2 h3 h4⟩

theorem unknown_format_dispatch_witness :
    transcodeIn "opus_48000" [1, 2] = some [1, 2] ∧
      transcodeOut "opus_48000" [1, 2] = transcodeOut "pcm_16000" [1, 2] :=
  unknown_format_dispatch "opus_48000" [1, 2]
    (by decide) (by decide) (by decide) (by decide)
